import Mathlib

/-!
Verification of the `TestHarness` core of firesim
(`src/sim/src/main/cc/midasexamples/TestHarness.h`).

The header declares the harness state (`pass = true`, `log = true`, `t = 0`,
`fail_t = 0`, `random_seed = 0`, a `std::mt19937_64` generator) and gives
inline bodies for `simulation_run`, `sample_value` and `cycles`.  The bodies
of `step`, `target_reset`, `poke`, `peek`, `expect` and `teardown` live in a
translation unit that is not part of the visible sources; those operations
are modelled from the specification, as marked on each definition.

Machine integers: the cycle counter `t` is a `uint64_t` in the header.  The
specification stipulates that `t` never wraps during a run, so the model
tracks it as an unbounded natural number, which agrees with the hardware
counter exactly while the count stays below `2 ^ 64`.
-/

namespace Firesim

/-- Internal state of the 64-bit Mersenne twister `std::mt19937_64`:
312 words of 64 bits plus the position index (`mti`). -/
structure MTState where
  mt : Array Nat
  index : Nat

/-- Seed initialisation of `std::mt19937_64` (the standard `seed(value)`
procedure): `mt[0] = seed`, `mt[i] = 6364136223846793005 *
(mt[i-1] xor (mt[i-1] >> 62)) + i`, all modulo `2 ^ 64`. -/
def mtInit (seed : Nat) : Array Nat := Id.run do
  let mut a : Array Nat := Array.mkArray 312 0
  a := a.set! 0 (seed % 2 ^ 64)
  for i in [1:312] do
    let prev := a[i - 1]!
    a := a.set! i ((6364136223846793005 * (prev ^^^ (prev >>> 62)) + i) % 2 ^ 64)
  return a

/-- The twist transformation of `std::mt19937_64`, regenerating all 312
state words. -/
def mtTwist (a : Array Nat) : Array Nat := Id.run do
  let mut m := a
  for i in [0:312] do
    let x := (m[i]! &&& 0xFFFFFFFF80000000) ||| (m[(i + 1) % 312]! &&& 0x7FFFFFFF)
    let xA := if x % 2 = 1 then (x >>> 1) ^^^ 0xB5026F5AA96619E9 else x >>> 1
    m := m.set! i (m[(i + 156) % 312]! ^^^ xA)
  return m

/-- The tempering transformation of `std::mt19937_64`. -/
def mtTemper (x : Nat) : Nat :=
  let x := x ^^^ ((x >>> 29) &&& 0x5555555555555555)
  let x := x ^^^ ((x <<< 17) &&& 0x71D67FFFEDA60000)
  let x := x ^^^ ((x <<< 37) &&& 0xFFF7EEE000000000)
  x ^^^ (x >>> 43)

/-- A freshly seeded `std::mt19937_64`; the index `312` forces a twist on the
first extraction, as in the reference implementation. -/
def mkMT (seed : Nat) : MTState :=
  ⟨mtInit seed, 312⟩

/-- Extract one 64-bit output from the generator, returning the output and
the successor state. -/
def mtNext (s : MTState) : Nat × MTState :=
  if 312 ≤ s.index then
    let m := mtTwist s.mt
    (mtTemper m[0]!, ⟨m, 1⟩)
  else
    (mtTemper s.mt[s.index]!, ⟨s.mt, s.index + 1⟩)

/-- The `k`-th output (0-based) of the generator started in state `s`. -/
def mtNth (s : MTState) : Nat → Nat
  | 0 => (mtNext s).1
  | k + 1 => mtNth (mtNext s).2 k

/-- Interface of the external peek-poke bridge (`peek_poke_t`), the part the
harness calls.  `sample_value` is the non-synchronised sampling read. -/
structure PeekPoke where
  sample_value : String → Nat

/-- The harness state of `class TestHarness` (header, lines 77–91), together
with `finalizeCount`, which records how many times `teardown` has performed
its external bridge finalisation (the effect itself is delegated to the
bridge registry and is outside the model, but its occurrence count is
observable). -/
structure TestHarness where
  peek_poke : PeekPoke
  target_name : String
  random_seed : Nat
  random : MTState
  pass : Bool
  log : Bool
  t : Nat
  fail_t : Nat
  finalizeCount : Nat

/-- Modelled from the spec: the `TestHarness` constructor (its body is in a
translation unit outside the visible sources).  The field initialisers
`random_seed = 0`, `pass = true`, `log = true`, `t = 0`, `fail_t = 0` are
taken from the header; the spec states the generator is "a 64-bit
pseudo-random generator seeded from `random_seed`". -/
def mkHarness (peek_poke : PeekPoke) (target_name : String) : TestHarness where
  peek_poke := peek_poke
  target_name := target_name
  random_seed := 0
  random := mkMT 0
  pass := true
  log := true
  t := 0
  fail_t := 0
  finalizeCount := 0

/-- Modelled from the spec: `TestHarness::step(uint32_t n, bool blocking)`.
"`t` is incremented by `n` before returning" in both blocking modes; the
actual cycle advance is delegated to the external bridge. -/
def TestHarness.step (h : TestHarness) (n : Nat) (blocking : Bool) : TestHarness :=
  { h with t := h.t + n }

/-- Modelled from the spec: `TestHarness::poke` writes a value through the
external bridge and touches no harness bookkeeping state. -/
def TestHarness.poke (h : TestHarness) (id : String) (value : Nat)
    (blocking : Bool) : TestHarness :=
  h

/-- Modelled from the spec: `TestHarness::target_reset(int pulse_length = 5)`
"asserts a reset condition for `pulse_length` cycles (default 5), then
advances past it with a blocking step sequence, leaving the design in its
post-reset state at cycle `t + pulse_length`". -/
def TestHarness.target_reset (h : TestHarness) (pulse_length : Nat := 5) : TestHarness :=
  ((h.poke "reset" 1 true).step pulse_length true).poke "reset" 0 true

/-- `TestHarness::cycles` (header, line 52): `return t;`. -/
def TestHarness.cycles (h : TestHarness) : Nat :=
  h.t

/-- `TestHarness::sample_value` (header, lines 44–46):
`return peek_poke.sample_value(id);` — the method body is in the header; it
delegates to the bridge and does not touch the harness state, so in the
state-passing embedding it returns the sampled value together with the
unchanged state. -/
def TestHarness.sample_value (h : TestHarness) (id : String) : Nat × TestHarness :=
  (h.peek_poke.sample_value id, h)

/-- Modelled from the spec: `TestHarness::expect(bool, const char*)`, the
primitive assertion.  "If `pass_bool` is true, returns true and performs no
state mutation besides optional logging.  If `pass_bool` is false: if this is
the first failure (`pass` was still true), sets `pass = false` and records
`fail_t = t`; returns false regardless of whether it was the first failure."
The diagnostic message goes to the log, outside the state. -/
def TestHarness.expect (h : TestHarness) (pass_bool : Bool) (msg : String) :
    TestHarness × Bool :=
  if pass_bool then (h, true)
  else if h.pass then ({ h with pass := false, fail_t := h.t }, false)
  else (h, false)

/-- Modelled from the spec: `TestHarness::teardown` "finalizes all registered
bridges (delegated to the Bridge Registry / Value Transport), then returns 0
if `pass == true` for the entire run, non-zero otherwise".  The finalisation
is recorded by incrementing `finalizeCount`; the non-zero failure code is 1. -/
def TestHarness.teardown (h : TestHarness) : TestHarness × Int :=
  ({ h with finalizeCount := h.finalizeCount + 1 }, if h.pass then 0 else 1)

/-- `TestHarness::simulation_run` (header, lines 31–34):
`run_test(); return teardown();`.  `run_test` is the pure-virtual test body
supplied by a concrete test; a test that fails with an unexpected condition
is modelled as returning `Except.error`, and since the source contains no
handler, the error propagates. -/
def simulation_run {E : Type} (run_test : TestHarness → Except E TestHarness)
    (h : TestHarness) : Except E (TestHarness × Int) := do
  let h' ← run_test h
  pure h'.teardown

/-- One harness operation of a run.  The primitive `expect` carries the
already-evaluated boolean: the `id`-based overloads peek the signal and
delegate to the primitive with the comparison result. -/
inductive Op where
  | step (n : Nat) (blocking : Bool)
  | target_reset (pulse_length : Nat)
  | poke (id : String) (value : Nat) (blocking : Bool)
  | sample_value (id : String)
  | expect (pass_bool : Bool) (msg : String)

/-- Apply one operation to the harness state, discarding return values. -/
def applyOp (h : TestHarness) : Op → TestHarness
  | .step n b => h.step n b
  | .target_reset p => h.target_reset p
  | .poke id v b => h.poke id v b
  | .sample_value id => (h.sample_value id).2
  | .expect b m => (h.expect b m).1

/-- Run a finite sequence of harness operations from a given state. -/
def runOps (h : TestHarness) : List Op → TestHarness
  | [] => h
  | op :: ops => runOps (applyOp h op) ops

/-- Whether a sequence of operations contains a failing `expect` call
(an `expect` whose boolean argument is `false`). -/
def failedIn (ops : List Op) : Bool :=
  ops.any fun op =>
    match op with
    | .expect false _ => true
    | _ => false

/-- A concrete bridge, used to instantiate theorems with hypotheses. -/
def ppTest : PeekPoke :=
  ⟨fun _ => 0⟩

/-- Whether one operation is a failing `expect`. -/
def isFail : Op → Bool
  | .expect false _ => true
  | _ => false

theorem failedIn_cons (op : Op) (ops : List Op) :
    failedIn (op :: ops) = (isFail op || failedIn ops) := by
  cases op with
  | expect b m => cases b <;> rfl
  | step n bl => rfl
  | target_reset p => rfl
  | poke id v bl => rfl
  | sample_value id => rfl

theorem runOps_append (h : TestHarness) (l1 l2 : List Op) :
    runOps h (l1 ++ l2) = runOps (runOps h l1) l2 := by
  induction l1 generalizing h with
  | nil => rfl
  | cons op ops ih => simpa [runOps] using ih (applyOp h op)

theorem expect_of_pass_false (h : TestHarness) (b : Bool) (m : String)
    (hp : h.pass = false) : (h.expect b m).1 = h := by
  cases b <;> simp [TestHarness.expect, hp]

theorem expect_first_fail (h : TestHarness) (m : String) (hp : h.pass = true) :
    (h.expect false m).1 = { h with pass := false, fail_t := h.t } := by
  simp [TestHarness.expect, hp]

theorem applyOp_pass_false (h : TestHarness) (op : Op) (hp : h.pass = false) :
    (applyOp h op).pass = false ∧ (applyOp h op).fail_t = h.fail_t := by
  cases op with
  | expect b m => rw [applyOp, expect_of_pass_false h b m hp]; exact ⟨hp, rfl⟩
  | step n bl => exact ⟨hp, rfl⟩
  | target_reset p => exact ⟨hp, rfl⟩
  | poke id v bl => exact ⟨hp, rfl⟩
  | sample_value id => exact ⟨hp, rfl⟩

theorem applyOp_not_fail (h : TestHarness) (op : Op) (hop : isFail op = false) :
    (applyOp h op).pass = h.pass ∧ (applyOp h op).fail_t = h.fail_t := by
  cases op with
  | expect b m =>
    cases b with
    | false => simp [isFail] at hop
    | true => exact ⟨rfl, rfl⟩
  | step n bl => exact ⟨rfl, rfl⟩
  | target_reset p => exact ⟨rfl, rfl⟩
  | poke id v bl => exact ⟨rfl, rfl⟩
  | sample_value id => exact ⟨rfl, rfl⟩

theorem runOps_pass_false : ∀ (ops : List Op) (h : TestHarness), h.pass = false →
    (runOps h ops).pass = false ∧ (runOps h ops).fail_t = h.fail_t
  | [], h, hp => ⟨hp, rfl⟩
  | op :: ops, h, hp => by
    have h1 := applyOp_pass_false h op hp
    have h2 := runOps_pass_false ops (applyOp h op) h1.1
    exact ⟨h2.1, h2.2.trans h1.2⟩

theorem runOps_no_fail : ∀ (ops : List Op) (h : TestHarness), failedIn ops = false →
    (runOps h ops).pass = h.pass ∧ (runOps h ops).fail_t = h.fail_t
  | [], h, _ => ⟨rfl, rfl⟩
  | op :: ops, h, hf => by
    rw [failedIn_cons] at hf
    have hop : isFail op = false ∧ failedIn ops = false := by
      cases hfop : isFail op
      · simp [hfop] at hf
        exact ⟨rfl, hf⟩
      · simp [hfop] at hf
    have h1 := applyOp_not_fail h op hop.1
    have h2 := runOps_no_fail ops (applyOp h op) hop.2
    exact ⟨h2.1.trans h1.1, h2.2.trans h1.2⟩

theorem applyOp_pass_true_iff (h : TestHarness) (op : Op) :
    (applyOp h op).pass = true ↔ (h.pass = true ∧ isFail op = false) := by
  cases hfop : isFail op with
  | false => simp [(applyOp_not_fail h op hfop).1]
  | true =>
    simp only [Bool.true_eq_false, and_false, iff_false]
    cases op with
    | expect b m =>
      cases b with
      | false =>
        cases hp : h.pass with
        | true => rw [applyOp, expect_first_fail h m hp]; simp
        | false => rw [applyOp, expect_of_pass_false h false m hp]; simp [hp]
      | true => simp [isFail] at hfop
    | step n bl => simp [isFail] at hfop
    | target_reset p => simp [isFail] at hfop
    | poke id v bl => simp [isFail] at hfop
    | sample_value id => simp [isFail] at hfop

theorem runOps_pass_true_iff : ∀ (ops : List Op) (h : TestHarness),
    (runOps h ops).pass = true ↔ (h.pass = true ∧ failedIn ops = false)
  | [], h => by simp [runOps, failedIn]
  | op :: ops, h => by
    rw [runOps, runOps_pass_true_iff ops (applyOp h op), applyOp_pass_true_iff,
      failedIn_cons]
    cases isFail op <;> simp [and_assoc]

theorem teardown_code_zero_iff (h : TestHarness) :
    (h.teardown).2 = 0 ↔ h.pass = true := by
  cases hp : h.pass <;> simp [TestHarness.teardown, hp]

theorem mkHarness_pass (pp : PeekPoke) (nm : String) : (mkHarness pp nm).pass = true :=
  rfl

theorem applyOp_t_le (h : TestHarness) (op : Op) : h.t ≤ (applyOp h op).t := by
  cases op with
  | step n bl => exact Nat.le_add_right h.t n
  | target_reset p => exact Nat.le_add_right h.t p
  | poke id v bl => exact Nat.le_refl h.t
  | sample_value id => exact Nat.le_refl h.t
  | expect b m =>
    cases b with
    | true => exact Nat.le_refl h.t
    | false =>
      show h.t ≤ (h.expect false m).1.t
      cases hp : h.pass with
      | true => rw [expect_first_fail h m hp]
      | false => rw [expect_of_pass_false h false m hp]

theorem runOps_t_le : ∀ (ops : List Op) (h : TestHarness), h.t ≤ (runOps h ops).t
  | [], h => Nat.le_refl h.t
  | op :: ops, h =>
    Nat.le_trans (applyOp_t_le h op) (runOps_t_le ops (applyOp h op))

/-- Claim C1: `teardown()` returns 0 if and only if `pass` is still true,
i.e. if and only if no `expect` call ever failed during the run; whenever at
least one `expect` failed, `teardown()` returns a non-zero value. -/
theorem teardown_zero_iff_no_failed_expect (pp : PeekPoke) (nm : String)
    (ops : List Op) :
    (((runOps (mkHarness pp nm) ops).teardown).2 = 0 ↔ failedIn ops = false) ∧
    (failedIn ops = true → ((runOps (mkHarness pp nm) ops).teardown).2 ≠ 0) := by
  have h1 := teardown_code_zero_iff (runOps (mkHarness pp nm) ops)
  have h2 := runOps_pass_true_iff ops (mkHarness pp nm)
  rw [mkHarness_pass] at h2
  constructor
  · rw [h1, h2]; simp
  · intro hf h0
    rw [h1, h2] at h0
    rw [h0.2] at hf
    exact Bool.false_ne_true hf

/-- Claim C1 witness: a run with one failing `expect` makes `teardown`
return a non-zero code. -/
theorem teardown_zero_iff_no_failed_expect_witness :
    ((runOps (mkHarness ppTest "x") [Op.expect false "m"]).teardown).2 ≠ 0 :=
  (teardown_zero_iff_no_failed_expect ppTest "x" [Op.expect false "m"]).2 rfl

/-- Claim C2: from a fresh harness, if no `expect` failed then `pass` is
still true and `fail_t` is still its initial 0 (unset); and on any run whose
operations split as a failure-free prefix, a first failing `expect`, and an
arbitrary remainder, `pass` ends false and `fail_t` equals the value of `t`
at the moment of that first failing `expect`, whatever later failures the
remainder contains. -/
theorem fail_t_first_failure (pp : PeekPoke) (nm : String) :
    (∀ ops : List Op, failedIn ops = false →
      (runOps (mkHarness pp nm) ops).pass = true ∧
      (runOps (mkHarness pp nm) ops).fail_t = 0) ∧
    (∀ (pre : List Op) (m : String) (rest : List Op), failedIn pre = false →
      (runOps (mkHarness pp nm) (pre ++ Op.expect false m :: rest)).pass = false ∧
      (runOps (mkHarness pp nm) (pre ++ Op.expect false m :: rest)).fail_t =
        (runOps (mkHarness pp nm) pre).t) := by
  constructor
  · intro ops hf
    have h := runOps_no_fail ops (mkHarness pp nm) hf
    exact ⟨h.1.trans (mkHarness_pass pp nm), h.2⟩
  · intro pre m rest hpre
    have hp1 : (runOps (mkHarness pp nm) pre).pass = true :=
      ((runOps_no_fail pre (mkHarness pp nm) hpre).1).trans (mkHarness_pass pp nm)
    rw [runOps_append, runOps]
    have hstep : applyOp (runOps (mkHarness pp nm) pre) (Op.expect false m) =
        { runOps (mkHarness pp nm) pre with
          pass := false
          fail_t := (runOps (mkHarness pp nm) pre).t } :=
      expect_first_fail (runOps (mkHarness pp nm) pre) m hp1
    rw [hstep]
    exact runOps_pass_false rest _ rfl

/-- Claim C2 witness: after a blocking 3-cycle step, a first failing
`expect` records `fail_t = 3`, and a later failing `expect` leaves it 3. -/
theorem fail_t_first_failure_witness :
    (runOps (mkHarness ppTest "x")
      ([Op.step 3 true] ++ Op.expect false "m" :: [Op.expect false "n"])).fail_t = 3 :=
  (((fail_t_first_failure ppTest "x").2 [Op.step 3 true] "m" [Op.expect false "n"])
    rfl).2.trans rfl

/-- Claim C3: `pass` starts true at construction, and once it is false no
sequence of harness operations ever sets it back to true. -/
theorem pass_monotone (pp : PeekPoke) (nm : String) :
    (mkHarness pp nm).pass = true ∧
    ∀ (h : TestHarness) (ops : List Op), h.pass = false → (runOps h ops).pass = false :=
  ⟨rfl, fun h ops hp => (runOps_pass_false ops h hp).1⟩

/-- A harness that has already recorded a failure, for instantiating
monotonicity. -/
def hFailed : TestHarness :=
  { mkHarness ppTest "x" with pass := false }

/-- Claim C3 witness: from a state with `pass = false`, a passing `expect`
and a step leave `pass` false. -/
theorem pass_monotone_witness :
    (runOps hFailed [Op.expect true "m", Op.step 1 true]).pass = false :=
  (pass_monotone ppTest "x").2 hFailed [Op.expect true "m", Op.step 1 true] rfl

/-- Claim C4: `expect(true, m)` returns true and leaves the state untouched;
`expect(false, m)` always returns false, and when `pass` was still true it
sets `pass = false` and records `fail_t = t` (leaving `t` itself unchanged),
while a repeated failure leaves the state untouched. -/
theorem expect_primitive_spec (h : TestHarness) (m : String) :
    h.expect true m = (h, true) ∧
    (h.expect false m).2 = false ∧
    (h.pass = true →
      (h.expect false m).1.pass = false ∧
      (h.expect false m).1.fail_t = h.t ∧
      (h.expect false m).1.t = h.t) ∧
    (h.pass = false → (h.expect false m).1 = h) := by
  refine ⟨rfl, ?_, ?_, ?_⟩
  · show (if h.pass then _ else _ : TestHarness × Bool).2 = false
    split <;> rfl
  · intro hp
    rw [expect_first_fail h m hp]
    exact ⟨rfl, rfl, rfl⟩
  · intro hp
    exact expect_of_pass_false h false m hp

/-- Claim C4 witness: a first failing `expect` on a fresh harness flips
`pass` to false. -/
theorem expect_primitive_spec_witness :
    ((mkHarness ppTest "x").expect false "m").1.pass = false :=
  ((expect_primitive_spec (mkHarness ppTest "x") "m").2.2.1 rfl).1

/-- Claim C5 (amended): `simulation_run` invokes `run_test` once; when
`run_test` returns normally, it then calls `teardown` exactly once (the
finalisation count increases by exactly one) and returns teardown's verdict
as the exit code; but when `run_test` exits with an error, `simulation_run`
propagates the error and `teardown` is not invoked on that path. -/
theorem simulation_run_teardown (E : Type)
    (run_test : TestHarness → Except E TestHarness) (h : TestHarness) :
    (∀ h', run_test h = Except.ok h' →
      simulation_run run_test h = Except.ok h'.teardown ∧
      (h'.teardown).1.finalizeCount = h'.finalizeCount + 1 ∧
      (h'.teardown).2 = (if h'.pass then (0 : Int) else 1)) ∧
    (∀ e, run_test h = Except.error e →
      simulation_run run_test h = Except.error e) := by
  constructor
  · intro h' hok
    refine ⟨?_, rfl, rfl⟩
    rw [simulation_run, hok]
    rfl
  · intro e herr
    rw [simulation_run, herr]
    rfl

/-- Claim C5 witness: for a normally returning `run_test`, the exit value is
exactly the teardown result. -/
theorem simulation_run_teardown_witness :
    simulation_run (fun h => (Except.ok h : Except Unit TestHarness))
      (mkHarness ppTest "x") = Except.ok ((mkHarness ppTest "x").teardown) :=
  ((simulation_run_teardown Unit (fun h => (Except.ok h : Except Unit TestHarness))
    (mkHarness ppTest "x")).1 (mkHarness ppTest "x") rfl).1

/-- Claim C5 counterexample: a `run_test` that exits with an unexpected
error bypasses `teardown` entirely — `simulation_run` returns the propagated
error and produces no teardown result (no finalisation, no exit code) on
that exit path, contradicting "teardown runs on every exit path out of
run_test". -/
theorem simulation_run_error_skips_teardown :
    simulation_run (fun _ => Except.error ()) (mkHarness ppTest "x") =
      Except.error () :=
  rfl

/-- Claim C6: each blocking `step(n, true)` increments `t` by exactly `n`,
so after any finite sequence of blocking steps `t` equals its initial value
plus the sum of the arguments. -/
theorem step_blocking_sum : ∀ (ns : List Nat) (h : TestHarness),
    (runOps h (ns.map fun n => Op.step n true)).t = h.t + ns.sum
  | [], h => rfl
  | n :: ns, h => by
    show (runOps (applyOp h (Op.step n true)) (ns.map fun n => Op.step n true)).t =
      h.t + (n :: ns).sum
    rw [step_blocking_sum ns]
    show h.t + n + ns.sum = h.t + (n + ns.sum)
    exact Nat.add_assoc h.t n ns.sum

/-- Claim C7: `t` never decreases across any harness operation (in
particular not across `step` with either blocking flag or `target_reset`),
hence not across any run, and a `step` of 0 cycles is a no-op leaving the
whole state — in particular `t` — unchanged. -/
theorem t_monotone :
    (∀ (h : TestHarness) (op : Op), h.t ≤ (applyOp h op).t) ∧
    (∀ (h : TestHarness) (ops : List Op), h.t ≤ (runOps h ops).t) ∧
    (∀ (h : TestHarness) (b : Bool), applyOp h (Op.step 0 b) = h) :=
  ⟨applyOp_t_le, fun h ops => runOps_t_le ops h, fun _ _ => rfl⟩

/-- Claim C8: `target_reset(pulse_length)` advances `t` by exactly
`pulse_length` via its blocking step, and with the default argument
(`pulse_length = 5`) `cycles()` afterwards reports exactly 5 more than
before. -/
theorem target_reset_cycles (h : TestHarness) (p : Nat) :
    (h.target_reset p).t = h.t + p ∧
    (h.target_reset).cycles = h.cycles + 5 :=
  ⟨rfl, rfl⟩

/-- Claim C9: the harness is constructed with the fixed default seed
`random_seed = 0`, and two harness instances built over any bridges and
target names produce identical output sequences from their `mt19937_64`
generators. -/
theorem random_deterministic (pp1 pp2 : PeekPoke) (nm1 nm2 : String) (k : Nat) :
    (mkHarness pp1 nm1).random_seed = 0 ∧
    (mkHarness pp1 nm1).random_seed = (mkHarness pp2 nm2).random_seed ∧
    mtNth (mkHarness pp1 nm1).random k = mtNth (mkHarness pp2 nm2).random k :=
  ⟨rfl, rfl, rfl⟩

/-- Claim C10: `sample_value(id)` returns exactly
`peek_poke.sample_value(id)` and leaves the entire harness state — in
particular `t`, `pass`, `fail_t`, `log` and `random` — unchanged. -/
theorem sample_value_pure (h : TestHarness) (id : String) :
    (h.sample_value id).1 = h.peek_poke.sample_value id ∧
    (h.sample_value id).2 = h ∧
    (h.sample_value id).2.t = h.t ∧
    (h.sample_value id).2.pass = h.pass ∧
    (h.sample_value id).2.fail_t = h.fail_t ∧
    (h.sample_value id).2.log = h.log ∧
    (h.sample_value id).2.random = h.random :=
  ⟨rfl, rfl, rfl, rfl, rfl, rfl, rfl⟩

end Firesim
